import Mathlib

/-!
# AudioFlow — verification of the core transcription logic

A shallow embedding of the AudioFlow service's core logic, translated from
the TypeScript sources:

* `src/utils/retry.ts` — `retryWithBackoff`, the exponential-backoff executor;
* `src/services/audio.service.ts` — `downloadAudio` (URL validation + retried fetch);
* `src/services/transcription.service.ts` — the mock batch pipeline;
* `src/services/azure-speech.service.ts` — the provider batch pipeline;
* `src/adapters/*` — the adapter factory and the two speech clients;
* `src/models/transcription.model.ts` — `findRecentTranscriptions`;
* the WebSocket streaming handler (`transcriptionWebSocket`).

JavaScript promises and callbacks are modelled with `Except` and explicit
state passing; the event-loop interleaving of the streaming handler is
modelled as a step function over scheduler-chosen events, one event per
run-to-completion segment of JavaScript code.
-/

namespace AudioFlow

/-! ## JavaScript thrown values

JavaScript code can `throw` any value.  `retryWithBackoff` (retry.ts line 18)
normalises a caught value with `error instanceof Error ? error : new Error(String(error))`.
We model a thrown value as either an `Error` object (identified by its message)
or a non-`Error` primitive (identified by its `String(...)` rendering). -/

inductive JsVal : Type where
  /-- an `Error` object carrying the given message -/
  | err (msg : String) : JsVal
  /-- a non-`Error` value whose `String(...)` rendering is `s` -/
  | prim (s : String) : JsVal
deriving DecidableEq, Repr

/-- `error instanceof Error ? error : new Error(String(error))` (retry.ts line 18). -/
def normalizeError : JsVal → JsVal
  | .err m => .err m
  | .prim s => .err s

/-- `error instanceof Error ? error.message : <fallback>` -/
def jsErrorMessage (fallback : String) : JsVal → String
  | .err m => m
  | .prim _ => fallback

/-! ## Backoff executor (`retryWithBackoff`, src/utils/retry.ts)

```ts
export async function retryWithBackoff<T>(fn: () => Promise<T>, options: RetryOptions): Promise<T> {
  const { maxAttempts, initialDelay, maxDelay, onRetry } = options;
  let lastError: Error;
  for (let attempt = 1; attempt <= maxAttempts; attempt++) {
    try {
      return await fn();
    } catch (error) {
      lastError = error instanceof Error ? error : new Error(String(error));
      if (attempt === maxAttempts) { throw lastError; }
      const delay = Math.min(initialDelay * Math.pow(2, attempt - 1), maxDelay);
      logWarn(...);
      if (onRetry) { onRetry(attempt, lastError); }
      await sleep(delay);
    }
  }
  throw lastError!;
}
```

The attempt counter of the `for` loop is modelled by the list
`[1, 2, …, maxAttempts]` (`retryAttemptNumbers`); `maxAttempts` is kept as an
`Int` because the TypeScript value is an arbitrary number.  Exhausting the
list without returning reaches the trailing `throw lastError!`; when the loop
body never ran, `lastError` is still undefined, which we model as
`Except.error none`.  Each invocation of `fn`, each `onRetry` observer call
and each `sleep` is recorded as a trace event. -/

structure RetryOptions where
  maxAttempts : Int
  initialDelay : Nat
  maxDelay : Nat
deriving Repr

inductive RetryEvent : Type where
  /-- `fn()` is invoked for the given attempt number -/
  | call (attempt : Nat) : RetryEvent
  /-- the optional `onRetry` observer is invoked with the attempt number and the error -/
  | observe (attempt : Nat) (e : JsVal) : RetryEvent
  /-- `await sleep(ms)` -/
  | delay (ms : Nat) : RetryEvent
deriving DecidableEq, Repr

def RetryEvent.isCall : RetryEvent → Bool
  | .call _ => true
  | _ => false

def RetryEvent.isDelay : RetryEvent → Bool
  | .delay _ => true
  | _ => false

/-- The body of the `for` loop of `retryWithBackoff`, iterated over the
remaining attempt numbers.  `fn attempt` is the outcome of the attempt;
`lastError` is the value of the `lastError` variable (`none` = still
undefined).  Returns the overall outcome (`Except.error` models `throw`)
together with the trace of calls, observer invocations and delays. -/
def retryList {α : Type} (fn : Nat → Except JsVal α) (opts : RetryOptions)
    (lastError : Option JsVal) : List Nat → Except (Option JsVal) α × List RetryEvent
  | [] => (.error lastError, [])
  | attempt :: rest =>
    match fn attempt with
    | .ok a => (.ok a, [.call attempt])
    | .error e =>
      let le := normalizeError e
      if (attempt : Int) = opts.maxAttempts then
        (.error (some le), [.call attempt])
      else
        let d := min (opts.initialDelay * 2 ^ (attempt - 1)) opts.maxDelay
        let r := retryList fn opts (some le) rest
        (r.1, .call attempt :: .observe attempt le :: .delay d :: r.2)

/-- `[1, 2, …, maxAttempts]`, the attempt numbers the `for` loop runs through
(empty when `maxAttempts < 1`). -/
def retryAttemptNumbers (maxAttempts : Int) : List Nat :=
  List.range' 1 maxAttempts.toNat

def retryWithBackoff {α : Type} (fn : Nat → Except JsVal α) (opts : RetryOptions) :
    Except (Option JsVal) α × List RetryEvent :=
  retryList fn opts none (retryAttemptNumbers opts.maxAttempts)

/-- Number of times the operation was invoked in a trace. -/
def callCount (tr : List RetryEvent) : Nat :=
  tr.countP (fun e => e.isCall)

/-- The trace the specification describes for an operation that fails on
attempts `1, …, k-1` (throwing the `Error` with message `errs j` on attempt
`j`) and succeeds on attempt `k`: for each retry attempt `n` with
`2 ≤ n ≤ k`, the previous attempt `n-1` is invoked and fails, the observer
is invoked with that attempt number and its error, and a delay of
`min(initialDelay * 2^(n-2), maxDelay)` is inserted before attempt `n`;
the final, successful attempt `k` is invoked last, with no delay after it. -/
def specSuccTrace (initialDelay maxDelay : Nat) (errs : Nat → String) (k : Nat) :
    List RetryEvent :=
  ((List.range' 2 (k - 1)).flatMap (fun n =>
      [.call (n - 1), .observe (n - 1) (.err (errs (n - 1))),
       .delay (min (initialDelay * 2 ^ (n - 2)) maxDelay)]))
    ++ [.call k]

/-! ## Data model (src/models/transcription.model.ts, src/types/index.ts) -/

/-- `source: { type: String, enum: ['mock', 'azure'] }` -/
inductive Source : Type where
  | mock : Source
  | azure : Source
deriving DecidableEq, Repr

/-- `metadata: { sessionId, duration, chunkCount }` of a streaming record. -/
structure SessionMetadata where
  sessionId : String
  duration : Nat
  chunkCount : Nat
deriving DecidableEq, Repr

/-- A persisted transcription document.  `id` and `createdAt` are assigned by
the store at creation (`timestamps: true`); `language` and `metadata` are
optional. -/
structure StoredRecord where
  id : Nat
  audioUrl : String
  transcription : String
  source : Source
  language : Option String
  metadata : Option SessionMetadata
  createdAt : Int
deriving DecidableEq, Repr

/-- The response shape `{id, audioUrl, transcription, source, language?, createdAt}`
returned by the batch pipelines. -/
structure TranscriptionResponse where
  id : Nat
  audioUrl : String
  transcription : String
  source : Source
  language : Option String
  createdAt : Int
deriving DecidableEq, Repr

def StoredRecord.toResponse (r : StoredRecord) : TranscriptionResponse :=
  ⟨r.id, r.audioUrl, r.transcription, r.source, r.language, r.createdAt⟩

/-! ## Speech clients and the adapter factory
(src/adapters/speech-client.real.ts, speech-client.mock.ts, index.ts,
src/config/environment.ts) -/

/-- JavaScript truthiness of an optional environment string:
`undefined` and `""` are falsy. -/
def jsTruthy : Option String → Bool
  | none => false
  | some s => !s.isEmpty

/-- The `AZURE_SPEECH_KEY` / `AZURE_SPEECH_REGION` environment values
(`none` = unset). -/
structure AzureConfig where
  speechKey : Option String
  speechRegion : Option String
deriving Repr

/-- `hasAzureCredentials = () => Boolean(env.AZURE_SPEECH_KEY && env.AZURE_SPEECH_REGION)` -/
def hasAzureCredentials (c : AzureConfig) : Bool :=
  jsTruthy c.speechKey && jsTruthy c.speechRegion

/-- Which speech-client implementation a process holds. -/
inductive SpeechClientKind : Type where
  | real : SpeechClientKind
  | mock : SpeechClientKind
deriving DecidableEq, Repr

/-- `createSpeechClient` (src/adapters/index.ts): real Azure client when
`config.azure.isConfigured`, mock otherwise.  Evaluated once at startup. -/
def createSpeechClient (c : AzureConfig) : SpeechClientKind :=
  if hasAzureCredentials c then .real else .mock

/-- `isConfigured()` of each client.  `RealSpeechClient.isConfigured` is
`Boolean(this.speechKey && this.speechRegion)`; `MockSpeechClient.isConfigured`
returns `true` unconditionally ("Mock is always \"configured\""). -/
def clientIsConfigured (k : SpeechClientKind) (c : AzureConfig) : Bool :=
  match k with
  | .real => hasAzureCredentials c
  | .mock => true

/-- `{text, confidence?, language, duration?}` returned by a speech client
(`SpeechRecognitionResult`).  `confidence` is kept in hundredths. -/
structure SpeechRecognitionResult where
  text : String
  confidence : Option Nat
  language : String
  duration : Option Nat
deriving DecidableEq, Repr

/-- The canned sentences of `MockSpeechClient.transcribe`, keyed by language,
with the `en-US` sentence as fallback for any other tag
(`transcriptions[language] || transcriptions['en-US']`). -/
def mockSpeechText (language : String) : String :=
  if language = "en-US" then
    "This is a mock transcription in English. The audio has been processed successfully."
  else if language = "fr-FR" then
    "Ceci est une transcription fictive en français. L\x27audio a été traité avec succès."
  else if language = "es-ES" then
    "Esta es una transcripción simulada en español. El audio se ha procesado correctamente."
  else if language = "de-DE" then
    "Dies ist eine simulierte Transkription auf Deutsch. Das Audio wurde erfolgreich verarbeitet."
  else if language = "it-IT" then
    "Questa è una trascrizione simulata in italiano. L\x27audio è stato elaborato con successo."
  else if language = "ja-JP" then
    "これは日本語のモック文字起こしです。オーディオは正常に処理されました。"
  else if language = "ko-KR" then
    "이것은 한국어 모의 전사입니다. 오디오가 성공적으로 처리되었습니다."
  else
    "This is a mock transcription in English. The audio has been processed successfully."

/-- `MockSpeechClient.transcribe`: always succeeds with the canned sentence,
confidence 0.95, duration 2500. -/
def mockClientTranscribe (language : String) : Except JsVal SpeechRecognitionResult :=
  .ok ⟨mockSpeechText language, some 95, language, some 2500⟩

/-! ## Real speech client, timeout branch
(src/adapters/speech-client.real.ts lines 47–108)

`RealSpeechClient.transcribe` accumulates provider partial-recognition events
into the `transcription` variable (`transcription += e.result.text + ' '` on
each `RecognizedSpeech` event) and arms a 60-second timer.  When the timer
fires while the promise is still pending it runs:

```ts
recognizer.stopContinuousRecognitionAsync();
if (transcription) {
  resolve({ text: transcription.trim(), language, duration });
} else {
  reject(new ExternalServiceError('Transcription timeout', 'Azure Speech'));
}
```
-/

/-- The `transcription` accumulator after the given sequence of recognized
texts (one entry per `RecognizedSpeech` event, in order). -/
def accumulateRecognized (texts : List String) : String :=
  texts.foldl (fun acc t => acc ++ t ++ " ") ""

/-- The 60-second timeout handler of `RealSpeechClient.transcribe`:
resolve with the trimmed accumulator when it is truthy (a nonempty string),
otherwise reject with the timeout error. -/
def realTranscribeOnTimeout (transcription : String) (language : String)
    (elapsed : Nat) : Except JsVal SpeechRecognitionResult :=
  if transcription ≠ "" then
    .ok ⟨transcription.trim, none, language, some elapsed⟩
  else
    .error (.err "Transcription timeout")

/-! ## Batch pipelines
(src/services/audio.service.ts, transcription.service.ts, azure-speech.service.ts)

The outcomes of the external collaborators during one request are supplied as
an environment:
* `urlValid` is the outcome of `isValidUrl(audioUrl)` (the WHATWG `new URL`
  parse plus the http/https protocol check — a platform builtin, so its
  outcome is taken as an input);
* `downloadAttempts n` is the outcome of the `n`-th HTTP `get` attempt inside
  `downloadAudio`'s retry loop (the payload itself is irrelevant here);
* `recognizeAttempts n` is the outcome of the `n`-th `client.transcribe`
  attempt inside the provider pipeline's retry loop;
* `persistOk` tells whether `TranscriptionModel.create` succeeds;
* `filename` is `getFilenameFromUrl(audioUrl)` and `timestamp` is
  `new Date().toISOString()` (both only influence generated text);
* `now` is the `createdAt` the store assigns;
* `retryOpts` is `config.retry` (the process-wide policy, default 3 attempts). -/

structure BatchEnv where
  urlValid : Bool
  downloadAttempts : Nat → Except JsVal Unit
  recognizeAttempts : Nat → Except JsVal SpeechRecognitionResult
  persistOk : Bool
  filename : String
  timestamp : String
  now : Int
  retryOpts : RetryOptions

/-- The errors a batch pipeline can propagate. -/
inductive BatchError : Type where
  /-- `InvalidUrlError` from `downloadAudio`'s validation step -/
  | invalidUrl : BatchError
  /-- `DownloadError` wrapping the final download failure's message -/
  | download (msg : String) : BatchError
  /-- the final recognition failure, rethrown unchanged by the service -/
  | recognition (e : Option JsVal) : BatchError
  /-- a failure of `TranscriptionModel.create` -/
  | persistence : BatchError
deriving DecidableEq, Repr

/-- `AudioService.downloadAudio`: reject with `InvalidUrlError` when
`isValidUrl` fails; otherwise run the download through `retryWithBackoff`
with the process-wide policy and wrap any failure that is not already an
`InvalidUrlError`/`DownloadError` into a `DownloadError` carrying
`error.message` (or `'Unknown download error'` for a non-`Error`). -/
def downloadAudio (env : BatchEnv) : Except BatchError Unit :=
  if !env.urlValid then
    .error .invalidUrl
  else
    match (retryWithBackoff env.downloadAttempts env.retryOpts).1 with
    | .ok _ => .ok ()
    | .error e =>
      .error (.download (match e with
        | some v => jsErrorMessage "Unknown download error" v
        | none => "Unknown download error"))

/-- `generateMockTranscription` (transcription.service.ts lines 15–22). -/
def generateMockTranscription (filename timestamp : String) : String :=
  "This is a mock transcription of the audio file: " ++ filename ++
  ". The audio was processed at " ++ timestamp ++ ".  \n" ++
  "    In a real implementation, this would contain the actual transcribed text from the audio content. \n" ++
  "    This mock service simulates the transcription process for testing and development purposes."

/-- `TranscriptionService.transcribeAudio` (the mock batch pipeline):
download (validated + retried), generate the mock text, persist one record
with `source: 'mock'`, and return its response shape.  The result pairs the
propagated outcome with the updated store contents. -/
def mockTranscribeAudio (env : BatchEnv) (audioUrl : String)
    (store : List StoredRecord) :
    Except BatchError TranscriptionResponse × List StoredRecord :=
  match downloadAudio env with
  | .error e => (.error e, store)
  | .ok _ =>
    let transcription := generateMockTranscription env.filename env.timestamp
    if env.persistOk then
      let doc : StoredRecord :=
        ⟨store.length, audioUrl, transcription, .mock, none, none, env.now⟩
      (.ok doc.toResponse, store ++ [doc])
    else
      (.error .persistence, store)

/-- `AzureSpeechService.transcribeAudio` (the provider batch pipeline):
compute `source = client.isConfigured() ? 'azure' : 'mock'`, download the
audio, run `client.transcribe` through `retryWithBackoff` with
`{maxAttempts: 3, initialDelay: 1000, maxDelay: 10000}`, persist one record
with that `source` and the language, and return its response shape.
Any failure before persistence is rethrown and nothing is persisted. -/
def azureTranscribeAudio (env : BatchEnv) (client : SpeechClientKind)
    (cfg : AzureConfig) (audioUrl language : String)
    (store : List StoredRecord) :
    Except BatchError TranscriptionResponse × List StoredRecord :=
  let source : Source := if clientIsConfigured client cfg then .azure else .mock
  match downloadAudio env with
  | .error e => (.error e, store)
  | .ok _ =>
    match (retryWithBackoff env.recognizeAttempts ⟨3, 1000, 10000⟩).1 with
    | .error e => (.error (.recognition e), store)
    | .ok result =>
      let transcription := result.text
      if env.persistOk then
        let doc : StoredRecord :=
          ⟨store.length, audioUrl, transcription, source, some language, none, env.now⟩
        (.ok doc.toResponse, store ++ [doc])
      else
        (.error .persistence, store)

/-! ## Transcription store query
(`findRecentTranscriptions`, src/models/transcription.model.ts)

```ts
transcriptionSchema.statics.findRecentTranscriptions = async function (days, page = 1, limit = 10, source?) {
  const threshold = new Date();
  threshold.setDate(threshold.getDate() - days);
  const query = { createdAt: { $gte: threshold } };
  if (source) { query.source = source; }
  const skip = (page - 1) * limit;
  const [transcriptions, total] = await Promise.all([
    this.find(query).sort({ createdAt: -1 }).skip(skip).limit(limit).lean(),
    this.countDocuments(query),
  ]);
  return { transcriptions, total, page, limit, totalPages: Math.ceil(total / limit) };
};
```

`createdAt` timestamps and `days` are measured in whole days here, so the
threshold is `now - days`.  MongoDB's descending sort on `createdAt` is
modelled by `List.insertionSort` with the relation `b.createdAt ≤ a.createdAt`. -/

/-- The selection predicate of the query: `createdAt ≥ threshold`, and
`source` equality when a source filter is supplied. -/
def matchesQuery (now days : Int) (source : Option Source) (r : StoredRecord) : Bool :=
  (now - days ≤ r.createdAt) &&
    (match source with
     | none => true
     | some s => r.source = s)

/-- `createdAt` descending, the order of `sort({ createdAt: -1 })`. -/
def createdAtDesc (a b : StoredRecord) : Prop :=
  b.createdAt ≤ a.createdAt

instance : DecidableRel createdAtDesc := fun a b => Int.decLe b.createdAt a.createdAt

instance : IsTotal StoredRecord createdAtDesc :=
  ⟨fun a b => (Int.le_total b.createdAt a.createdAt).elim Or.inl Or.inr⟩

instance : IsTrans StoredRecord createdAtDesc :=
  ⟨fun _ _ _ h1 h2 => le_trans h2 h1⟩

structure QueryResult where
  transcriptions : List StoredRecord
  total : Nat
  page : Nat
  limit : Nat
  totalPages : Nat
deriving Repr

/-- `findRecentTranscriptions days page limit source` over the store
contents `docs` at time `now`.  `Math.ceil(total / limit)` is
`(total + limit - 1) / limit` for a positive `limit`. -/
def findRecentTranscriptions (docs : List StoredRecord) (now : Int)
    (days : Int) (page limit : Nat) (source : Option Source) : QueryResult :=
  let selected := docs.filter (matchesQuery now days source)
  let sorted := selected.insertionSort createdAtDesc
  let skip := (page - 1) * limit
  { transcriptions := (sorted.drop skip).take limit
    total := selected.length
    page := page
    limit := limit
    totalPages := (selected.length + limit - 1) / limit }

/-! ## Streaming session manager
(`transcriptionWebSocket`, src/routes/websocket or part_008)

One WebSocket connection holds the mutable session variables
`chunkCount`, `audioChunks`, `isComplete` together with the socket itself.
JavaScript is single-threaded: each run-to-completion segment between
`await` points is atomic.  The segments are:

* the connection-open prologue (sends the welcome partial) — folded into the
  initial state;
* the synchronous prefix of the `message` handler for one inbound message
  (`WsEvent.recv`), which for the session's first chunk also runs the first
  iteration of the `processChunks` loop synchronously (the loop body up to
  its `await sleep(500)` runs before `processChunks()` returns control);
* one later iteration of the `processChunks` loop (`WsEvent.emitTick`);
* the continuation of the `message` handler after `await sleep(1000)` for a
  last chunk (`WsEvent.finishFinal`): create the record, send the final
  message, close the socket;
* the socket `close`/`error` handlers (`WsEvent.connClose`), which set
  `isComplete = true`;
* passage of wall-clock time (`WsEvent.tick`).

The scheduler (event loop + timers + network) chooses the order of events;
disabled continuations are no-ops.  `ws`'s `send` on a socket that is no
longer open delivers nothing, so nothing is appended to `sent` once
`closed = true`. -/

/-- An inbound WebSocket message after `JSON.parse(message.toString())`:
a chunk message, a JSON object whose `type` is not `'chunk'` (handled by the
`else` branch, which only logs a warning), or a payload on which
`JSON.parse` throws (handled by the `catch` block). -/
inductive WsIn : Type where
  | chunk (data : String) (isLast : Bool) : WsIn
  | otherType (t : String) : WsIn
  | malformed : WsIn
deriving DecidableEq, Repr

/-- An outbound WebSocket message.  `confidence` is kept in hundredths. -/
inductive WsOut : Type where
  | interim (text : String) (confidence : Nat) : WsOut
  | final (text : String) (id : Nat) : WsOut
  | errorNote (message : String) (code : String) : WsOut
deriving DecidableEq, Repr

def WsOut.isInterim : WsOut → Bool
  | .interim _ _ => true
  | _ => false

def WsOut.isFinalMsg : WsOut → Bool
  | .final _ _ => true
  | _ => false

def WsOut.isErrorNote : WsOut → Bool
  | .errorNote _ _ => true
  | _ => false

/-- The welcome message sent on connection establishment:
`{type:'partial', text:'Connected. Ready to receive audio chunks.', confidence: 1.0}`. -/
def welcomeMessage : WsOut :=
  .interim ("Connected. Ready to receive audio chunks.") 100

/-- The 20-word vocabulary of `generatePartialTranscription`. -/
def partialWords : List String :=
  [("Hello"), ("this"), ("is"), ("a"), ("streaming"), ("transcription"),
   ("test"), ("with"), ("partial"), ("results"), ("being"), ("sent"),
   ("in"), ("real"), ("time"), ("as"), ("audio"), ("chunks"),
   ("are"), ("processed")]

/-- `generatePartialTranscription(chunks)`: the first
`min(chunks.length * 2, 20)` vocabulary words joined by spaces. -/
def generatePartialTranscription (chunks : List String) : String :=
  String.intercalate (" ") (partialWords.take (min (chunks.length * 2) partialWords.length))

/-- The confidence of a partial result, in hundredths:
`Math.min(0.5 + chunks.length * 0.05, 0.95)`. -/
def partialConfidence (chunks : List String) : Nat :=
  min (50 + chunks.length * 5) 95

/-- The partial message one iteration of `processChunks` sends. -/
def partialMessage (chunks : List String) : WsOut :=
  .interim (generatePartialTranscription chunks) (partialConfidence chunks)

/-- `generateFinalTranscription(chunks)` (also uses the session id). -/
def generateFinalTranscription (sessionId : String) (chunks : List String) : String :=
  "This is a mock streaming transcription result from " ++ toString chunks.length ++
  " audio chunks. " ++ "Session ID: " ++ sessionId ++ ". " ++
  "In a real implementation, this would contain the complete transcription of all received audio data. " ++
  "The streaming service processed the audio in real-time and generated partial results throughout the session."

/-- The state of one streaming session plus its observable effects.
`pendingFinal` counts message-handler continuations parked on the
`await sleep(1000)` that precedes finalization; `sent` is the sequence of
messages sent on the socket, in order; `records` are the documents created
by `TranscriptionModel.create` during the session. -/
structure WsState where
  sessionId : String
  clock : Nat
  chunkCount : Nat
  audioChunks : List String
  isComplete : Bool
  closed : Bool
  pendingFinal : Nat
  sent : List WsOut
  records : List StoredRecord
  nextId : Nat
deriving Repr

/-- The state right after the connection-open prologue: counters at zero and
the welcome partial already sent. -/
def wsInit (sessionId : String) : WsState :=
  ⟨sessionId, 0, 0, [], false, false, 0, [welcomeMessage], [], 0⟩

/-- A scheduler event: one atomic segment of the handler code. -/
inductive WsEvent : Type where
  | recv (m : WsIn) : WsEvent
  | emitTick : WsEvent
  | finishFinal : WsEvent
  | tick (ms : Nat) : WsEvent
  | connClose : WsEvent
deriving DecidableEq, Repr

/-- One atomic segment of `transcriptionWebSocket`. -/
def wsStep (s : WsState) (e : WsEvent) : WsState :=
  match e with
  | .tick ms => { s with clock := s.clock + ms }
  | .connClose =>
    -- the `close` / `error` handlers: `isComplete = true`
    if s.closed then s else { s with closed := true, isComplete := true }
  | .recv m =>
    if s.closed then s
    else
      match m with
      | .malformed =>
        -- `catch`: send `{type:'error', message, code}` and keep waiting
        { s with sent := s.sent ++
            [.errorNote ("Failed to process audio chunk") ("PROCESSING_ERROR")] }
      | .otherType _ =>
        -- `else`: `logWarn('Unknown message type received', …)` only
        s
      | .chunk data isLast =>
        let s1 := { s with chunkCount := s.chunkCount + 1,
                           audioChunks := s.audioChunks ++ [data] }
        -- `if (chunkCount === 1) processChunks()…`: the first loop iteration
        -- runs synchronously up to its `await sleep(500)`, sending one
        -- partial when the while-guard `!isComplete && audioChunks.length > 0` holds
        let s2 :=
          if s1.chunkCount = 1 ∧ s1.isComplete = false ∧ s1.audioChunks ≠ [] then
            { s1 with sent := s1.sent ++ [partialMessage s1.audioChunks] }
          else s1
        if isLast then
          { s2 with isComplete := true, pendingFinal := s2.pendingFinal + 1 }
        else s2
  | .emitTick =>
    -- a later iteration of the `processChunks` while loop
    if s.closed = false ∧ s.isComplete = false ∧ s.audioChunks ≠ [] then
      { s with sent := s.sent ++ [partialMessage s.audioChunks] }
    else s
  | .finishFinal =>
    if s.pendingFinal = 0 then s
    else
      let text := generateFinalTranscription s.sessionId s.audioChunks
      let doc : StoredRecord :=
        ⟨s.nextId, ("ws://streaming-session/") ++ s.sessionId, text, .mock, none,
         some ⟨s.sessionId, s.clock, s.chunkCount⟩, 0⟩
      let s1 := { s with pendingFinal := s.pendingFinal - 1,
                         records := s.records ++ [doc],
                         nextId := s.nextId + 1 }
      -- `socket.send` on an already-closed socket delivers nothing
      if s1.closed then s1
      else { s1 with sent := s1.sent ++ [.final text doc.id], closed := true }

/-- A whole session: fold the scheduler's event sequence from the initial
state. -/
def wsRun (sessionId : String) (es : List WsEvent) : WsState :=
  es.foldl wsStep (wsInit sessionId)

/-- A scheduler event that is pure noise for the session variables: an
emission-loop iteration or the passage of time. -/
def isNoiseEvent : WsEvent → Bool
  | .emitTick => true
  | .tick _ => true
  | _ => false

/-- The reachability invariant of a streaming session: the welcome partial
is the first message ever sent; while the socket is open no final message
has been sent; and every message other than the last one sent is not a
final message. -/
def WsInv (s : WsState) : Prop :=
  s.sent.head? = some welcomeMessage ∧
  (s.closed = false → ∀ x ∈ s.sent, x.isFinalMsg = false) ∧
  (∀ x ∈ s.sent.dropLast, x.isFinalMsg = false)

/-! ## Lemmas about the backoff executor -/

/-- Running the loop over the attempt numbers `[a, …, a+n-1]` (the last of
which is `maxAttempts`) with an operation that fails on every attempt:
the outcome is the last attempt's normalised error and the operation is
invoked exactly `n` times. -/
lemma retryList_allFail {α : Type} (fn : Nat → Except JsVal α) (opts : RetryOptions)
    (errv : Nat → JsVal) (hfail : ∀ n, fn n = .error (errv n)) :
    ∀ (n a : Nat) (le : Option JsVal), 1 ≤ n →
      ((a + n - 1 : Nat) : Int) = opts.maxAttempts →
      (retryList fn opts le (List.range' a n)).1 =
          .error (some (normalizeError (errv (a + n - 1)))) ∧
        callCount (retryList fn opts le (List.range' a n)).2 = n := by
  intro n
  induction n with
  | zero => intro a le h1 _; omega
  | succ n ih =>
    intro a le _ hlast
    rw [List.range'_succ]
    rcases Nat.eq_zero_or_pos n with hn | hn
    · subst hn
      have ha : ((a : Nat) : Int) = opts.maxAttempts := by
        simpa using hlast
      simp [retryList, hfail a, ha, callCount, List.countP_cons, RetryEvent.isCall]
    · have hne : ¬((a : Nat) : Int) = opts.maxAttempts := by omega
      have hlast' : ((a + 1 + n - 1 : Nat) : Int) = opts.maxAttempts := by
        omega
      have := ih (a + 1) (some (normalizeError (errv a))) hn hlast'
      simp only [retryList, hfail a, hne, if_false]
      refine ⟨by simpa using this.1, ?_⟩
      have harith : a + 1 + n - 1 = a + n := by omega
      simp [callCount, List.countP_cons, RetryEvent.isCall] at this ⊢
      omega

/-- Running the loop over the attempt numbers `[a, …, a+n-1]` (the last of
which is `maxAttempts`) with an operation that throws the `Error`
`errs j` on each attempt `j < k` and succeeds on attempt `k ∈ [a, a+n)`:
the result is the success value and the trace is exactly the one the
specification describes, starting at attempt `a`. -/
lemma retryList_ok {α : Type} (fn : Nat → Except JsVal α) (opts : RetryOptions)
    (errs : Nat → String) (v : α) (k : Nat)
    (hsucc : fn k = .ok v) :
    ∀ (n a : Nat) (le : Option JsVal), 1 ≤ a → a ≤ k → k < a + n →
      ((a + n - 1 : Nat) : Int) = opts.maxAttempts →
      (∀ j, a ≤ j → j < k → fn j = .error (.err (errs j))) →
      retryList fn opts le (List.range' a n) =
        (.ok v,
         ((List.range' (a + 1) (k - a)).flatMap (fun m =>
           [.call (m - 1), .observe (m - 1) (.err (errs (m - 1))),
            .delay (min (opts.initialDelay * 2 ^ (m - 2)) opts.maxDelay)]))
           ++ [.call k]) := by
  intro n
  induction n with
  | zero => intro a le h1 h2 h3 _ _; omega
  | succ n ih =>
    intro a le ha1 hak hkn hlast hfail
    rw [List.range'_succ]
    rcases eq_or_lt_of_le hak with heq | hlt
    · subst heq
      simp [retryList, hsucc, Nat.sub_self]
    · have hfa : fn a = .error (.err (errs a)) := hfail a le_rfl hlt
      have hne : ¬((a : Nat) : Int) = opts.maxAttempts := by omega
      have hlast' : ((a + 1 + n - 1 : Nat) : Int) = opts.maxAttempts := by
        omega
      have hrec := ih (a + 1) (some (.err (errs a))) (by omega) hlt (by omega) hlast'
        (fun j hj1 hj2 => hfail j (by omega) hj2)
      simp only [retryList, hfa, normalizeError, hne, if_false, hrec]
      have hka : k - a = (k - (a + 1)) + 1 := by omega
      rw [hka, List.range'_succ, List.flatMap_cons]
      have h1 : a + 1 - 1 = a := by omega
      have h2 : a + 1 - 2 = a - 1 := by omega
      simp [h1, h2]

/-- `callCount` of the specification's success trace is `k` (for `1 ≤ k`). -/
lemma callCount_specSuccTrace (d M : Nat) (errs : Nat → String) (k : Nat)
    (hk : 1 ≤ k) :
    callCount (specSuccTrace d M errs k) = k := by
  have haux : ∀ l : List Nat,
      List.countP (fun e => RetryEvent.isCall e)
        (l.flatMap (fun n =>
          ([.call (n - 1), .observe (n - 1) (.err (errs (n - 1))),
            .delay (min (d * 2 ^ (n - 2)) M)] : List RetryEvent))) = l.length := by
    intro l
    induction l with
    | nil => rfl
    | cons x xs ihx =>
      rw [List.flatMap_cons, List.countP_append, ihx]
      simp [List.countP_cons, RetryEvent.isCall, Nat.add_comm]
  unfold specSuccTrace callCount
  rw [List.countP_append, haux, List.length_range']
  simp [List.countP_cons, RetryEvent.isCall]
  omega

/-! ## Claims about the backoff executor -/

/-- **C2, counterexample.**  An operation that rejects on its single allowed
attempt with the non-`Error` value `"boom"` is surfaced as
`new Error("boom")`, which differs from the rejected value: the failure is
wrapped, not propagated unchanged. -/
theorem retry_wraps_non_error_failure :
    retryWithBackoff (fun _ => (.error (.prim ("boom")) : Except JsVal Nat)) ⟨1, 0, 0⟩
        = (.error (some (.err ("boom"))), [.call 1]) ∧
      JsVal.err ("boom") ≠ JsVal.prim ("boom") := by
  exact ⟨rfl, by simp⟩

/-- **C2 (amended).**  For every `RetryPolicy` with `maxAttempts ≥ 1` and
every operation that fails on every attempt, `retryWithBackoff` invokes the
operation exactly `maxAttempts` times and then propagates the failure of the
last attempt normalised as on line 18 of retry.ts: unchanged when the thrown
value is an `Error` object, and wrapped once as `new Error(String(value))`
when it is not.  In particular the failure is never swallowed. -/
theorem retry_exhaustion_surfaces_last_error {α : Type}
    (fn : Nat → Except JsVal α) (opts : RetryOptions) (errv : Nat → JsVal)
    (h1 : 1 ≤ opts.maxAttempts) (hfail : ∀ n, fn n = .error (errv n)) :
    (retryWithBackoff fn opts).1 =
        .error (some (normalizeError (errv opts.maxAttempts.toNat))) ∧
      callCount (retryWithBackoff fn opts).2 = opts.maxAttempts.toNat := by
  unfold retryWithBackoff retryAttemptNumbers
  have hn : 1 ≤ opts.maxAttempts.toNat := by omega
  have hlast : ((1 + opts.maxAttempts.toNat - 1 : Nat) : Int) = opts.maxAttempts := by
    omega
  have := retryList_allFail fn opts errv hfail opts.maxAttempts.toNat 1 none hn hlast
  have harith : 1 + opts.maxAttempts.toNat - 1 = opts.maxAttempts.toNat := by omega
  rw [harith] at this
  exact this

/-- Witness for `retry_exhaustion_surfaces_last_error`: two attempts, both
failing with `Error` objects; the second attempt's error is surfaced
unchanged and the operation ran twice. -/
theorem retry_exhaustion_witness :
    (retryWithBackoff (fun n => (.error (.err (toString n)) : Except JsVal Nat)) ⟨2, 5, 7⟩).1 =
        .error (some (normalizeError (.err (toString 2)))) ∧
      callCount (retryWithBackoff (fun n => (.error (.err (toString n)) : Except JsVal Nat)) ⟨2, 5, 7⟩).2 = 2 :=
  retry_exhaustion_surfaces_last_error
    (fun n => .error (.err (toString n))) ⟨2, 5, 7⟩ (fun n => .err (toString n))
    (by decide) (fun _ => rfl)

/-- **C3.**  For a policy with `maxAttempts ≥ 1` and an operation that throws
the `Error` `errs j` on each attempt `j < k` and succeeds on attempt
`k ≤ maxAttempts`: the success value is returned, the full event trace is
exactly the specification's trace — the delay inserted before each retry
attempt `n ≥ 2` equals `min(initialDelay * 2^(n-2), maxDelay)`, immediately
preceded by the observer invocation with the failed attempt's number and its
error — the operation is invoked exactly `k` times, and the trace ends with
the successful invocation, so no delay follows it. -/
theorem retry_success_trace {α : Type} (fn : Nat → Except JsVal α)
    (opts : RetryOptions) (errs : Nat → String) (v : α) (k : Nat)
    (hk1 : 1 ≤ k) (hk2 : (k : Int) ≤ opts.maxAttempts)
    (hfail : ∀ j, 1 ≤ j → j < k → fn j = .error (.err (errs j)))
    (hsucc : fn k = .ok v) :
    retryWithBackoff fn opts =
        (.ok v, specSuccTrace opts.initialDelay opts.maxDelay errs k) ∧
      callCount (retryWithBackoff fn opts).2 = k ∧
      (retryWithBackoff fn opts).2.getLast? = some (.call k) := by
  unfold retryWithBackoff retryAttemptNumbers
  have hlast : ((1 + opts.maxAttempts.toNat - 1 : Nat) : Int) = opts.maxAttempts := by
    omega
  have heq := retryList_ok fn opts errs v k hsucc opts.maxAttempts.toNat 1 none
    le_rfl hk1 (by omega) hlast hfail
  have htr : specSuccTrace opts.initialDelay opts.maxDelay errs k =
      ((List.range' 2 (k - 1)).flatMap (fun m =>
        [.call (m - 1), .observe (m - 1) (.err (errs (m - 1))),
         .delay (min (opts.initialDelay * 2 ^ (m - 2)) opts.maxDelay)]))
        ++ [.call k] := rfl
  refine ⟨by rw [heq, htr], ?_, ?_⟩
  · rw [heq, ← htr]
    exact callCount_specSuccTrace _ _ _ _ hk1
  · rw [heq]
    simp

/-- Witness for `retry_success_trace`: `maxAttempts = 3`, `initialDelay = 100`,
`maxDelay = 150`, failure on attempts 1 and 2, success on attempt 3: the
delays before attempts 2 and 3 are `min(100, 150) = 100` and
`min(200, 150) = 150`, three invocations, no delay after the success. -/
theorem retry_success_trace_witness :
    retryWithBackoff
        (fun n => if n = 3 then (.ok (42 : Nat)) else (.error (.err (toString n))))
        ⟨3, 100, 150⟩ =
      (.ok 42,
       [.call 1, .observe 1 (.err (toString 1)), .delay 100,
        .call 2, .observe 2 (.err (toString 2)), .delay 150,
        .call 3]) := by
  have h := retry_success_trace
    (fun n => if n = 3 then (.ok (42 : Nat)) else (.error (.err (toString n))))
    ⟨3, 100, 150⟩ (fun n => toString n) 42 3 (by decide) (by decide)
    (by intro j h1 h2
        interval_cases j <;> rfl)
    (by rfl)
  rw [h.1]
  rfl

/-- **C10.**  For a policy whose `maxAttempts` is less than 1 the attempt
loop body is never entered: the operation is never invoked (empty trace) and
the trailing `throw lastError!` rethrows the still-undefined `lastError`
(modelled `none`), not an `Error`. -/
theorem retry_no_attempts_throws_undefined {α : Type}
    (fn : Nat → Except JsVal α) (d M : Nat) (m : Int) (hm : m < 1) :
    retryWithBackoff fn ⟨m, d, M⟩ = (.error none, []) := by
  unfold retryWithBackoff retryAttemptNumbers
  have hz : Int.toNat m = 0 := by omega
  simp only [hz]
  rfl

/-- Witness for `retry_no_attempts_throws_undefined` at `maxAttempts = 0`. -/
theorem retry_no_attempts_witness :
    retryWithBackoff (fun _ => (.ok (0 : Nat) : Except JsVal Nat)) ⟨0, 1, 2⟩ =
      (.error none, []) :=
  retry_no_attempts_throws_undefined (fun _ => .ok 0) 1 2 0 (by decide)

/-! ## Claims about the batch pipelines -/

/-- **C4.**  For every syntactically valid http/https URL (the validation
outcome `urlValid` is true), one invocation of either batch pipeline either
persists exactly one record and returns its response shape, or propagates
exactly one error and leaves the store untouched — never both, never
neither; in particular no partial record survives a failure of download,
recognition or persistence. -/
theorem batch_pipeline_atomicity (env : BatchEnv) (client : SpeechClientKind)
    (cfg : AzureConfig) (url lang : String) (store : List StoredRecord)
    (hvalid : env.urlValid = true) :
    ((∃ rec, mockTranscribeAudio env url store = (.ok rec.toResponse, store ++ [rec])) ∨
      (∃ e, mockTranscribeAudio env url store = (.error e, store))) ∧
    ((∃ rec, azureTranscribeAudio env client cfg url lang store =
        (.ok rec.toResponse, store ++ [rec])) ∨
      (∃ e, azureTranscribeAudio env client cfg url lang store = (.error e, store))) := by
  constructor
  · unfold mockTranscribeAudio
    cases hdl : downloadAudio env with
    | error e => exact Or.inr ⟨e, rfl⟩
    | ok u =>
      cases hp : env.persistOk with
      | false => exact Or.inr ⟨.persistence, by simp [hp]⟩
      | true =>
        exact Or.inl ⟨⟨store.length, url,
          generateMockTranscription env.filename env.timestamp, .mock, none, none,
          env.now⟩, by simp [hp]⟩
  · unfold azureTranscribeAudio
    cases hdl : downloadAudio env with
    | error e => exact Or.inr ⟨e, rfl⟩
    | ok u =>
      cases hrec : (retryWithBackoff env.recognizeAttempts ⟨3, 1000, 10000⟩).1 with
      | error e => exact Or.inr ⟨.recognition e, by simp [hrec]⟩
      | ok result =>
        cases hp : env.persistOk with
        | false => exact Or.inr ⟨.persistence, by simp [hrec, hp]⟩
        | true =>
          exact Or.inl ⟨⟨store.length, url, result.text,
            if clientIsConfigured client cfg then .azure else .mock,
            some lang, none, env.now⟩, by simp [hrec, hp]⟩

/-- Witness for `batch_pipeline_atomicity`: a concrete request against the
mock speech client with a successful download, recognition and persistence. -/
theorem batch_pipeline_atomicity_witness :
    ((∃ rec, mockTranscribeAudio
        ⟨true, fun _ => .ok (), fun _ => mockClientTranscribe ("en-US"), true,
         ("test.mp3"), ("2025-01-01T00:00:00.000Z"), 0, ⟨3, 1000, 10000⟩⟩
        ("https://example.com/test.mp3") [] =
          (.ok rec.toResponse, [] ++ [rec])) ∨
      (∃ e, mockTranscribeAudio
        ⟨true, fun _ => .ok (), fun _ => mockClientTranscribe ("en-US"), true,
         ("test.mp3"), ("2025-01-01T00:00:00.000Z"), 0, ⟨3, 1000, 10000⟩⟩
        ("https://example.com/test.mp3") [] = (.error e, []))) ∧
    ((∃ rec, azureTranscribeAudio
        ⟨true, fun _ => .ok (), fun _ => mockClientTranscribe ("en-US"), true,
         ("test.mp3"), ("2025-01-01T00:00:00.000Z"), 0, ⟨3, 1000, 10000⟩⟩
        SpeechClientKind.mock ⟨none, none⟩
        ("https://example.com/test.mp3") ("en-US") [] =
          (.ok rec.toResponse, [] ++ [rec])) ∨
      (∃ e, azureTranscribeAudio
        ⟨true, fun _ => .ok (), fun _ => mockClientTranscribe ("en-US"), true,
         ("test.mp3"), ("2025-01-01T00:00:00.000Z"), 0, ⟨3, 1000, 10000⟩⟩
        SpeechClientKind.mock ⟨none, none⟩
        ("https://example.com/test.mp3") ("en-US") [] = (.error e, []))) :=
  batch_pipeline_atomicity
    ⟨true, fun _ => .ok (), fun _ => mockClientTranscribe ("en-US"), true,
     ("test.mp3"), ("2025-01-01T00:00:00.000Z"), 0, ⟨3, 1000, 10000⟩⟩
    SpeechClientKind.mock ⟨none, none⟩
    ("https://example.com/test.mp3") ("en-US") [] rfl

/-- **C1 (code bug).**  When the process starts without Azure credentials the
adapter factory selects the mock speech client, yet a successful run of
`AzureSpeechService.transcribeAudio` persists a record with
`source = 'azure'`, not `'mock'`: `MockSpeechClient.isConfigured()` returns
`true`, so `source = this.client.isConfigured() ? 'azure' : 'mock'`
evaluates to `'azure'` even though the simulated recognizer produced the
text.  This evaluates the embedded code at such an input. -/
theorem mock_client_persists_azure_origin :
    createSpeechClient ⟨none, none⟩ = SpeechClientKind.mock ∧
    (azureTranscribeAudio
        ⟨true, fun _ => .ok (), fun _ => mockClientTranscribe ("en-US"), true,
         ("test.mp3"), ("2025-01-01T00:00:00.000Z"), 0, ⟨3, 1000, 10000⟩⟩
        (createSpeechClient ⟨none, none⟩) ⟨none, none⟩
        ("https://example.com/test.mp3") ("en-US") []).2 =
      [⟨0, ("https://example.com/test.mp3"), mockSpeechText ("en-US"),
        Source.azure, some ("en-US"), none, 0⟩] ∧
    Source.azure ≠ Source.mock := by
  refine ⟨rfl, rfl, by simp⟩

/-! ## Claim about the real speech client's timeout branch -/

/-- **C9.**  When the 60-second hard timeout of `RealSpeechClient.transcribe`
fires while the call is still pending: if any text accumulated from the
provider's partial-recognition events (the accumulator is a nonempty
string), the call resolves successfully with that accumulated text (trimmed
of its trailing separator) as a best-effort result; if nothing accumulated,
the call rejects with the `Transcription timeout` failure. -/
theorem timeout_returns_partial_text_or_fails (texts : List String)
    (lang : String) (elapsed : Nat) :
    (accumulateRecognized texts ≠ "" →
      realTranscribeOnTimeout (accumulateRecognized texts) lang elapsed =
        .ok ⟨(accumulateRecognized texts).trim, none, lang, some elapsed⟩) ∧
    (accumulateRecognized texts = "" →
      realTranscribeOnTimeout (accumulateRecognized texts) lang elapsed =
        .error (.err ("Transcription timeout"))) := by
  constructor
  · intro h
    simp [realTranscribeOnTimeout, h]
  · intro h
    simp [realTranscribeOnTimeout, h]

/-- Witness for `timeout_returns_partial_text_or_fails`: one recognized
fragment gives a best-effort success; no fragments give the timeout
failure. -/
theorem timeout_returns_partial_text_witness :
    realTranscribeOnTimeout (accumulateRecognized [("hello")]) ("en-US") 60000 =
        .ok ⟨(accumulateRecognized [("hello")]).trim, none, ("en-US"), some 60000⟩ ∧
      realTranscribeOnTimeout (accumulateRecognized []) ("en-US") 60000 =
        .error (.err ("Transcription timeout")) :=
  ⟨(timeout_returns_partial_text_or_fails [("hello")] ("en-US") 60000).1 (by decide),
   (timeout_returns_partial_text_or_fails [] ("en-US") 60000).2 rfl⟩

/-! ## Claims about the store query -/

/-- A record passing the query predicate satisfies the date threshold and
the origin filter. -/
lemma matchesQuery_true {now days : Int} {src : Option Source} {r : StoredRecord}
    (h : matchesQuery now days src r = true) :
    now - days ≤ r.createdAt ∧ ∀ s, src = some s → r.source = s := by
  unfold matchesQuery at h
  cases src with
  | none =>
    simp only [Bool.and_eq_true, decide_eq_true_eq] at h
    exact ⟨h.1, by simp⟩
  | some s =>
    simp only [Bool.and_eq_true, decide_eq_true_eq] at h
    exact ⟨h.1, fun s' hs' => by cases hs'; exact h.2⟩

/-- **C8.**  For every store state, reference time, `daysBack`, `page ≥ 1`,
`pageSize ≥ 1` and optional origin filter, `findRecentTranscriptions`
returns one page of at most `pageSize` items, each selected item satisfies
`createdAt ≥ now − daysBack` and the origin filter, the page is ordered by
`createdAt` descending, `total` equals the number of selected records,
`totalPages = ceil(total / pageSize)`, and the page is exactly the
`page`-th slice of a descending-sorted permutation of the selected
records.  (With equal `createdAt` values a strictly descending order is
unattainable; the order is descending with ties adjacent.) -/
theorem query_returns_recent_sorted_page (docs : List StoredRecord)
    (now days : Int) (page limit : Nat) (src : Option Source)
    (hp : 1 ≤ page) (hl : 1 ≤ limit) :
    (findRecentTranscriptions docs now days page limit src).transcriptions.length ≤ limit ∧
    (∀ r ∈ (findRecentTranscriptions docs now days page limit src).transcriptions,
      now - days ≤ r.createdAt ∧ ∀ s, src = some s → r.source = s) ∧
    List.Sorted createdAtDesc
      (findRecentTranscriptions docs now days page limit src).transcriptions ∧
    (findRecentTranscriptions docs now days page limit src).total =
      (docs.filter (matchesQuery now days src)).length ∧
    (findRecentTranscriptions docs now days page limit src).totalPages =
      ((docs.filter (matchesQuery now days src)).length + limit - 1) / limit ∧
    ∃ l, l.Perm (docs.filter (matchesQuery now days src)) ∧
      List.Sorted createdAtDesc l ∧
      (findRecentTranscriptions docs now days page limit src).transcriptions =
        (l.drop ((page - 1) * limit)).take limit := by
  have hsub :
      List.Sublist
        ((((docs.filter (matchesQuery now days src)).insertionSort
          createdAtDesc).drop ((page - 1) * limit)).take limit)
        ((docs.filter (matchesQuery now days src)).insertionSort createdAtDesc) :=
    ((List.take_sublist _ _).trans (List.drop_sublist _ _))
  refine ⟨?_, ?_, ?_, rfl, rfl, ?_⟩
  · simpa [findRecentTranscriptions] using
      (List.length_take_le _ _)
  · intro r hr
    have hmem : r ∈ (docs.filter (matchesQuery now days src)).insertionSort
        createdAtDesc := hsub.mem hr
    rw [List.mem_insertionSort] at hmem
    exact matchesQuery_true (List.mem_filter.mp hmem).2
  · exact List.Pairwise.sublist hsub
      (List.sorted_insertionSort createdAtDesc _)
  · exact ⟨(docs.filter (matchesQuery now days src)).insertionSort createdAtDesc,
      List.perm_insertionSort _ _, List.sorted_insertionSort _ _, rfl⟩

/-- Witness for `query_returns_recent_sorted_page`: the spec's example —
records at `now`, `now − 20d`, `now − 40d`, queried with `daysBack = 30`,
`page = 1`, `pageSize = 1`. -/
theorem query_returns_recent_sorted_page_witness :
    (findRecentTranscriptions
        [⟨0, ("a.mp3"), ("t0"), .mock, none, none, 0⟩,
         ⟨1, ("b.mp3"), ("t1"), .azure, none, none, -20⟩,
         ⟨2, ("c.mp3"), ("t2"), .mock, none, none, -40⟩]
        0 30 1 1 none).transcriptions.length ≤ 1 ∧
    (∀ r ∈ (findRecentTranscriptions
        [⟨0, ("a.mp3"), ("t0"), .mock, none, none, 0⟩,
         ⟨1, ("b.mp3"), ("t1"), .azure, none, none, -20⟩,
         ⟨2, ("c.mp3"), ("t2"), .mock, none, none, -40⟩]
        0 30 1 1 none).transcriptions,
      (0 : Int) - 30 ≤ r.createdAt ∧ ∀ s, (none : Option Source) = some s → r.source = s) ∧
    List.Sorted createdAtDesc
      (findRecentTranscriptions
        [⟨0, ("a.mp3"), ("t0"), .mock, none, none, 0⟩,
         ⟨1, ("b.mp3"), ("t1"), .azure, none, none, -20⟩,
         ⟨2, ("c.mp3"), ("t2"), .mock, none, none, -40⟩]
        0 30 1 1 none).transcriptions ∧
    (findRecentTranscriptions
        [⟨0, ("a.mp3"), ("t0"), .mock, none, none, 0⟩,
         ⟨1, ("b.mp3"), ("t1"), .azure, none, none, -20⟩,
         ⟨2, ("c.mp3"), ("t2"), .mock, none, none, -40⟩]
        0 30 1 1 none).total =
      (([⟨0, ("a.mp3"), ("t0"), .mock, none, none, 0⟩,
         ⟨1, ("b.mp3"), ("t1"), .azure, none, none, -20⟩,
         ⟨2, ("c.mp3"), ("t2"), .mock, none, none, -40⟩] :
        List StoredRecord).filter (matchesQuery 0 30 none)).length ∧
    (findRecentTranscriptions
        [⟨0, ("a.mp3"), ("t0"), .mock, none, none, 0⟩,
         ⟨1, ("b.mp3"), ("t1"), .azure, none, none, -20⟩,
         ⟨2, ("c.mp3"), ("t2"), .mock, none, none, -40⟩]
        0 30 1 1 none).totalPages =
      ((([⟨0, ("a.mp3"), ("t0"), .mock, none, none, 0⟩,
         ⟨1, ("b.mp3"), ("t1"), .azure, none, none, -20⟩,
         ⟨2, ("c.mp3"), ("t2"), .mock, none, none, -40⟩] :
        List StoredRecord).filter (matchesQuery 0 30 none)).length + 1 - 1) / 1 ∧
    ∃ l, l.Perm (([⟨0, ("a.mp3"), ("t0"), .mock, none, none, 0⟩,
         ⟨1, ("b.mp3"), ("t1"), .azure, none, none, -20⟩,
         ⟨2, ("c.mp3"), ("t2"), .mock, none, none, -40⟩] :
        List StoredRecord).filter (matchesQuery 0 30 none)) ∧
      List.Sorted createdAtDesc l ∧
      (findRecentTranscriptions
        [⟨0, ("a.mp3"), ("t0"), .mock, none, none, 0⟩,
         ⟨1, ("b.mp3"), ("t1"), .azure, none, none, -20⟩,
         ⟨2, ("c.mp3"), ("t2"), .mock, none, none, -40⟩]
        0 30 1 1 none).transcriptions =
        (l.drop ((1 - 1) * 1)).take 1 :=
  query_returns_recent_sorted_page
    [⟨0, ("a.mp3"), ("t0"), .mock, none, none, 0⟩,
     ⟨1, ("b.mp3"), ("t1"), .azure, none, none, -20⟩,
     ⟨2, ("c.mp3"), ("t2"), .mock, none, none, -40⟩]
    0 30 1 1 none (by decide) (by decide)

/-! ## Lemmas about the streaming session manager -/

/-- Once the socket is closed it stays closed. -/
lemma wsStep_closed_mono (s : WsState) (e : WsEvent) (h : s.closed = true) :
    (wsStep s e).closed = true := by
  cases e with
  | tick ms => simpa [wsStep] using h
  | connClose => simp [wsStep, h]
  | recv m => simp [wsStep, h]
  | emitTick => simp [wsStep, h]
  | finishFinal =>
    by_cases hp : s.pendingFinal = 0
    · simpa [wsStep, hp] using h
    · simp [wsStep, hp, h]

/-- Nothing is sent on a closed socket. -/
lemma wsStep_sent_of_closed (s : WsState) (e : WsEvent) (h : s.closed = true) :
    (wsStep s e).sent = s.sent := by
  cases e with
  | tick ms => simp [wsStep]
  | connClose => simp [wsStep, h]
  | recv m => simp [wsStep, h]
  | emitTick => simp [wsStep, h]
  | finishFinal =>
    by_cases hp : s.pendingFinal = 0
    · simp [wsStep, hp]
    · simp [wsStep, hp, h]

/-- `isComplete` is never reset. -/
lemma wsStep_complete_mono (s : WsState) (e : WsEvent) (h : s.isComplete = true) :
    (wsStep s e).isComplete = true := by
  cases e with
  | tick ms => simpa [wsStep] using h
  | connClose =>
    by_cases hc : s.closed <;> simp [wsStep, hc, h]
  | recv m =>
    by_cases hc : s.closed
    · simpa [wsStep, hc] using h
    · cases m with
      | malformed => simpa [wsStep, hc] using h
      | otherType t => simpa [wsStep, hc] using h
      | chunk d last =>
        cases last <;> simp [wsStep, hc, h]
  | emitTick => simpa [wsStep, h] using h
  | finishFinal =>
    by_cases hp : s.pendingFinal = 0
    · simpa [wsStep, hp] using h
    · simp [wsStep, hp, h, apply_ite]

/-- Once finalization has begun (`isComplete = true`) no step sends another
partial message: the emission-loop guard and the synchronous first loop
iteration both test `isComplete`. -/
lemma wsStep_interim_count (s : WsState) (e : WsEvent) (h : s.isComplete = true) :
    ((wsStep s e).sent).countP (fun m => m.isInterim) =
      s.sent.countP (fun m => m.isInterim) := by
  cases e with
  | tick ms => simp [wsStep]
  | connClose => by_cases hc : s.closed <;> simp [wsStep, hc]
  | recv m =>
    by_cases hc : s.closed
    · simp [wsStep, hc]
    · cases m with
      | malformed => simp [wsStep, hc, List.countP_append, WsOut.isInterim]
      | otherType t => simp [wsStep, hc]
      | chunk d last =>
        cases last <;> simp [wsStep, hc, h]
  | emitTick => simp [wsStep, h]
  | finishFinal =>
    by_cases hp : s.pendingFinal = 0
    · simp [wsStep, hp]
    · by_cases hc : s.closed <;>
        simp [wsStep, hp, hc, List.countP_append, WsOut.isInterim]

/-- Each step either leaves `sent` unchanged or appends exactly one message,
only while the socket is open; a final message is appended only by the step
that also closes the socket. -/
lemma wsStep_append_shape (s : WsState) (e : WsEvent) :
    (wsStep s e).sent = s.sent ∨
    (s.closed = false ∧ ∃ x, (wsStep s e).sent = s.sent ++ [x] ∧
      (x.isFinalMsg = true → (wsStep s e).closed = true)) := by
  cases e with
  | tick ms => exact Or.inl (by simp [wsStep])
  | connClose => cases hc : s.closed <;> simp [wsStep, hc]
  | recv m =>
    cases hc : s.closed with
    | true => exact Or.inl (by simp [wsStep, hc])
    | false =>
      cases m with
      | malformed =>
        refine Or.inr ⟨rfl,
          .errorNote ("Failed to process audio chunk") ("PROCESSING_ERROR"),
          by simp [wsStep, hc], ?_⟩
        intro hx
        simp [WsOut.isFinalMsg] at hx
      | otherType t => exact Or.inl (by simp [wsStep, hc])
      | chunk d last =>
        by_cases h1 : s.chunkCount = 0
        · by_cases h2 : s.isComplete = false
          · refine Or.inr ⟨rfl, partialMessage (s.audioChunks ++ [d]), ?_, ?_⟩
            · cases last <;> simp [wsStep, hc, h1, h2]
            · intro hx
              simp [partialMessage, WsOut.isFinalMsg] at hx
          · refine Or.inl ?_
            cases last <;> simp [wsStep, hc, h1, h2]
        · refine Or.inl ?_
          cases last <;> simp [wsStep, hc, h1]
  | emitTick =>
    cases hc : s.closed with
    | true => exact Or.inl (by simp [wsStep, hc])
    | false =>
      by_cases h2 : s.isComplete = false
      · by_cases h3 : s.audioChunks = []
        · exact Or.inl (by simp [wsStep, hc, h2, h3])
        · refine Or.inr ⟨rfl, partialMessage s.audioChunks,
            by simp [wsStep, hc, h2, h3], ?_⟩
          intro hx
          simp [partialMessage, WsOut.isFinalMsg] at hx
      · exact Or.inl (by simp [wsStep, hc, h2])
  | finishFinal =>
    by_cases hp : s.pendingFinal = 0
    · exact Or.inl (by simp [wsStep, hp])
    · cases hc : s.closed with
      | true => exact Or.inl (by simp [wsStep, hp, hc])
      | false =>
        refine Or.inr ⟨rfl,
          .final (generateFinalTranscription s.sessionId s.audioChunks) s.nextId,
          by simp [wsStep, hp, hc], ?_⟩
        intro _
        simp [wsStep, hp, hc]

/-- Appending one message keeps the first message first. -/
lemma head?_append_single {l : List WsOut} {w x : WsOut} (h : l.head? = some w) :
    (l ++ [x]).head? = some w := by
  cases l with
  | nil => simp at h
  | cons a t => simpa using h

lemma wsInv_init (sid : String) : WsInv (wsInit sid) := by
  refine ⟨rfl, ?_, ?_⟩
  · intro _ x hx
    simp [wsInit] at hx
    simp [hx, welcomeMessage, WsOut.isFinalMsg]
  · intro x hx
    simp [wsInit] at hx

lemma wsInv_step (s : WsState) (e : WsEvent) (h : WsInv s) : WsInv (wsStep s e) := by
  obtain ⟨h0, h1, h2⟩ := h
  rcases wsStep_append_shape s e with hsame | ⟨hopen, x, happ, hfin⟩
  · refine ⟨by rw [hsame]; exact h0, ?_, by rw [hsame]; exact h2⟩
    intro hcl
    have : s.closed = false := by
      cases hc : s.closed with
      | false => rfl
      | true => rw [wsStep_closed_mono s e hc] at hcl; cases hcl
    rw [hsame]
    exact h1 this
  · have hall : ∀ y ∈ s.sent, y.isFinalMsg = false := h1 hopen
    refine ⟨by rw [happ]; exact head?_append_single h0, ?_, ?_⟩
    · intro hcl y hy
      rw [happ] at hy
      rcases List.mem_append.mp hy with hy | hy
      · exact hall y hy
      · have hyx : y = x := by simpa using hy
        subst hyx
        cases hx : y.isFinalMsg with
        | false => rfl
        | true => rw [hfin hx] at hcl; cases hcl
    · intro y hy
      rw [happ, List.dropLast_concat] at hy
      exact hall y hy

lemma wsInv_foldl (l : List WsEvent) (s : WsState) (h : WsInv s) :
    WsInv (l.foldl wsStep s) := by
  induction l generalizing s with
  | nil => exact h
  | cons e t ih => exact ih (wsStep s e) (wsInv_step s e h)

lemma wsInv_run (sid : String) (es : List WsEvent) : WsInv (wsRun sid es) :=
  wsInv_foldl es (wsInit sid) (wsInv_init sid)

lemma wsFoldl_closed_mono (l : List WsEvent) (s : WsState) (h : s.closed = true) :
    (l.foldl wsStep s).closed = true := by
  induction l generalizing s with
  | nil => exact h
  | cons e t ih => exact ih (wsStep s e) (wsStep_closed_mono s e h)

lemma wsFoldl_sent_of_closed (l : List WsEvent) (s : WsState) (h : s.closed = true) :
    (l.foldl wsStep s).sent = s.sent := by
  induction l generalizing s with
  | nil => rfl
  | cons e t ih =>
    rw [List.foldl_cons, ih (wsStep s e) (wsStep_closed_mono s e h),
      wsStep_sent_of_closed s e h]

lemma wsFoldl_complete_mono (l : List WsEvent) (s : WsState) (h : s.isComplete = true) :
    (l.foldl wsStep s).isComplete = true := by
  induction l generalizing s with
  | nil => exact h
  | cons e t ih => exact ih (wsStep s e) (wsStep_complete_mono s e h)

lemma wsFoldl_interim_count (l : List WsEvent) (s : WsState) (h : s.isComplete = true) :
    ((l.foldl wsStep s).sent).countP (fun m => m.isInterim) =
      s.sent.countP (fun m => m.isInterim) := by
  induction l generalizing s with
  | nil => rfl
  | cons e t ih =>
    rw [List.foldl_cons, ih (wsStep s e) (wsStep_complete_mono s e h),
      wsStep_interim_count s e h]

/-! ## Claims about the streaming session manager -/

/-- **C5.**  Over the whole sequence of outbound messages of any streaming
session (any scheduling of message deliveries, emission-loop iterations,
finalization continuations, timer ticks and connection closes): the welcome
partial is the first message sent; every message other than the last one is
not a final message (so a final message, when present, is the last); and
once finalization has begun — `isComplete` is set on receipt of the chunk
with `isLast = true` — no further partial message is ever sent: the number
of partial messages sent never grows after any prefix of the run that has
`isComplete`. -/
theorem streaming_message_ordering (sid : String) (es : List WsEvent) :
    (wsRun sid es).sent.head? = some welcomeMessage ∧
    (∀ x ∈ (wsRun sid es).sent.dropLast, x.isFinalMsg = false) ∧
    (∀ es₁ es₂, es = es₁ ++ es₂ → (wsRun sid es₁).isComplete = true →
      ((wsRun sid es).sent).countP (fun m => m.isInterim) =
        ((wsRun sid es₁).sent).countP (fun m => m.isInterim)) := by
  obtain ⟨h0, _, h2⟩ := wsInv_run sid es
  refine ⟨h0, h2, ?_⟩
  intro es₁ es₂ hsplit hcomp
  subst hsplit
  rw [wsRun, List.foldl_append]
  exact wsFoldl_interim_count es₂ (wsRun sid es₁) hcomp

/-- Witness for `streaming_message_ordering`: a one-chunk session, split
after the last chunk was received. -/
theorem streaming_message_ordering_witness :
    (wsRun ("s") [.recv (.chunk ("a") true), .finishFinal]).sent.head? =
        some welcomeMessage ∧
      ((wsRun ("s") [.recv (.chunk ("a") true), .finishFinal]).sent).countP
          (fun m => m.isInterim) =
        ((wsRun ("s") [.recv (.chunk ("a") true)]).sent).countP
          (fun m => m.isInterim) := by
  have h := streaming_message_ordering ("s") [.recv (.chunk ("a") true), .finishFinal]
  exact ⟨h.1, h.2.2 [.recv (.chunk ("a") true)] [.finishFinal] rfl (by decide)⟩

/-- Emission-loop iterations and timer ticks never touch the session
variables, the store or the lifecycle flags. -/
lemma wsNoise_step (s : WsState) (e : WsEvent) (h : isNoiseEvent e = true) :
    (wsStep s e).chunkCount = s.chunkCount ∧
    (wsStep s e).audioChunks = s.audioChunks ∧
    (wsStep s e).isComplete = s.isComplete ∧
    (wsStep s e).closed = s.closed ∧
    (wsStep s e).pendingFinal = s.pendingFinal ∧
    (wsStep s e).records = s.records ∧
    (wsStep s e).nextId = s.nextId ∧
    (wsStep s e).sessionId = s.sessionId := by
  cases e with
  | tick ms => simp [wsStep]
  | emitTick =>
    simp only [wsStep]
    split <;> simp
  | recv m => simp [isNoiseEvent] at h
  | finishFinal => simp [isNoiseEvent] at h
  | connClose => simp [isNoiseEvent] at h

lemma wsNoise_foldl (l : List WsEvent) (h : ∀ e ∈ l, isNoiseEvent e = true)
    (s : WsState) :
    (l.foldl wsStep s).chunkCount = s.chunkCount ∧
    (l.foldl wsStep s).audioChunks = s.audioChunks ∧
    (l.foldl wsStep s).isComplete = s.isComplete ∧
    (l.foldl wsStep s).closed = s.closed ∧
    (l.foldl wsStep s).pendingFinal = s.pendingFinal ∧
    (l.foldl wsStep s).records = s.records ∧
    (l.foldl wsStep s).nextId = s.nextId ∧
    (l.foldl wsStep s).sessionId = s.sessionId := by
  induction l generalizing s with
  | nil => exact ⟨rfl, rfl, rfl, rfl, rfl, rfl, rfl, rfl⟩
  | cons e t ih =>
    have he := wsNoise_step s e (h e (List.mem_cons_self e t))
    have ht := ih (fun x hx => h x (List.mem_cons_of_mem e hx)) (wsStep s e)
    rw [List.foldl_cons]
    exact ⟨ht.1.trans he.1, ht.2.1.trans he.2.1, ht.2.2.1.trans he.2.2.1,
      ht.2.2.2.1.trans he.2.2.2.1, ht.2.2.2.2.1.trans he.2.2.2.2.1,
      ht.2.2.2.2.2.1.trans he.2.2.2.2.2.1,
      ht.2.2.2.2.2.2.1.trans he.2.2.2.2.2.2.1,
      ht.2.2.2.2.2.2.2.trans he.2.2.2.2.2.2.2⟩

/-- **C6.**  A session that receives one chunk with `isLast = false` and then
one chunk with `isLast = true` — with any number of emission-loop iterations
and timer ticks scheduled around them, and the finalization continuation
running afterwards — persists nothing before finalization, persists at
finalization exactly one record carrying session metadata with the session
id, the elapsed duration and `chunkCount = 2`, and sends exactly one final
message, the last message sent, carrying that record's identifier and
text. -/
theorem streaming_two_chunk_persists_once (sid d₁ d₂ : String)
    (n₁ n₂ n₃ n₄ : List WsEvent)
    (h₁ : ∀ e ∈ n₁, isNoiseEvent e = true) (h₂ : ∀ e ∈ n₂, isNoiseEvent e = true)
    (h₃ : ∀ e ∈ n₃, isNoiseEvent e = true) (h₄ : ∀ e ∈ n₄, isNoiseEvent e = true) :
    (wsRun sid (n₁ ++ [.recv (.chunk d₁ false)] ++ n₂ ++ [.recv (.chunk d₂ true)]
        ++ n₃)).records = [] ∧
    (wsRun sid (n₁ ++ [.recv (.chunk d₁ false)] ++ n₂ ++ [.recv (.chunk d₂ true)]
        ++ n₃ ++ [.finishFinal] ++ n₄)).records =
      [⟨0, ("ws://streaming-session/") ++ sid,
        generateFinalTranscription sid [d₁, d₂], .mock, none,
        some ⟨sid,
          (wsRun sid (n₁ ++ [.recv (.chunk d₁ false)] ++ n₂
            ++ [.recv (.chunk d₂ true)] ++ n₃)).clock, 2⟩, 0⟩] ∧
    ((wsRun sid (n₁ ++ [.recv (.chunk d₁ false)] ++ n₂ ++ [.recv (.chunk d₂ true)]
        ++ n₃ ++ [.finishFinal] ++ n₄)).sent).countP (fun m => m.isFinalMsg) = 1 ∧
    (wsRun sid (n₁ ++ [.recv (.chunk d₁ false)] ++ n₂ ++ [.recv (.chunk d₂ true)]
        ++ n₃ ++ [.finishFinal] ++ n₄)).sent.getLast? =
      some (.final (generateFinalTranscription sid [d₁, d₂]) 0) := by
  have hinv := wsInv_run sid (n₁ ++ [.recv (.chunk d₁ false)] ++ n₂
    ++ [.recv (.chunk d₂ true)] ++ n₃)
  simp only [wsRun, List.foldl_append, List.foldl_cons, List.foldl_nil] at hinv ⊢
  obtain ⟨a1, a2, a3, a4, a5, a6, a7, a8⟩ := wsNoise_foldl n₁ h₁ (wsInit sid)
  simp only [wsInit] at a1 a2 a3 a4 a5 a6 a7 a8
  obtain ⟨b1, b2, b3, b4, b5, b6, b7, b8⟩ :
      (wsStep (n₁.foldl wsStep (wsInit sid))
        (WsEvent.recv (.chunk d₁ false))).chunkCount = 1 ∧
      (wsStep (n₁.foldl wsStep (wsInit sid))
        (WsEvent.recv (.chunk d₁ false))).audioChunks = [d₁] ∧
      (wsStep (n₁.foldl wsStep (wsInit sid))
        (WsEvent.recv (.chunk d₁ false))).isComplete = false ∧
      (wsStep (n₁.foldl wsStep (wsInit sid))
        (WsEvent.recv (.chunk d₁ false))).closed = false ∧
      (wsStep (n₁.foldl wsStep (wsInit sid))
        (WsEvent.recv (.chunk d₁ false))).pendingFinal = 0 ∧
      (wsStep (n₁.foldl wsStep (wsInit sid))
        (WsEvent.recv (.chunk d₁ false))).records = [] ∧
      (wsStep (n₁.foldl wsStep (wsInit sid))
        (WsEvent.recv (.chunk d₁ false))).nextId = 0 ∧
      (wsStep (n₁.foldl wsStep (wsInit sid))
        (WsEvent.recv (.chunk d₁ false))).sessionId = sid := by
    simp [wsStep, wsInit, a1, a2, a3, a4, a5, a6, a7, a8]
  set sB := wsStep (n₁.foldl wsStep (wsInit sid)) (WsEvent.recv (.chunk d₁ false))
    with hsB
  obtain ⟨c1, c2, c3, c4, c5, c6, c7, c8⟩ := wsNoise_foldl n₂ h₂ sB
  rw [b1] at c1
  rw [b2] at c2
  rw [b3] at c3
  rw [b4] at c4
  rw [b5] at c5
  rw [b6] at c6
  rw [b7] at c7
  rw [b8] at c8
  obtain ⟨e1, e2, e3, e4, e5, e6, e7, e8⟩ :
      (wsStep (n₂.foldl wsStep sB) (WsEvent.recv (.chunk d₂ true))).chunkCount = 2 ∧
      (wsStep (n₂.foldl wsStep sB) (WsEvent.recv (.chunk d₂ true))).audioChunks = [d₁, d₂] ∧
      (wsStep (n₂.foldl wsStep sB) (WsEvent.recv (.chunk d₂ true))).isComplete = true ∧
      (wsStep (n₂.foldl wsStep sB) (WsEvent.recv (.chunk d₂ true))).closed = false ∧
      (wsStep (n₂.foldl wsStep sB) (WsEvent.recv (.chunk d₂ true))).pendingFinal = 1 ∧
      (wsStep (n₂.foldl wsStep sB) (WsEvent.recv (.chunk d₂ true))).records = [] ∧
      (wsStep (n₂.foldl wsStep sB) (WsEvent.recv (.chunk d₂ true))).nextId = 0 ∧
      (wsStep (n₂.foldl wsStep sB) (WsEvent.recv (.chunk d₂ true))).sessionId = sid := by
    simp [wsStep, c1, c2, c3, c4, c5, c6, c7, c8]
  set sD := wsStep (n₂.foldl wsStep sB) (WsEvent.recv (.chunk d₂ true)) with hsD
  obtain ⟨f1, f2, f3, f4, f5, f6, f7, f8⟩ := wsNoise_foldl n₃ h₃ sD
  rw [e1] at f1
  rw [e2] at f2
  rw [e3] at f3
  rw [e4] at f4
  rw [e5] at f5
  rw [e6] at f6
  rw [e7] at f7
  rw [e8] at f8
  refine ⟨f6, ?_⟩
  obtain ⟨g1, g2, g3⟩ :
      (wsStep (n₃.foldl wsStep sD) WsEvent.finishFinal).records =
        [⟨0, ("ws://streaming-session/") ++ sid,
          generateFinalTranscription sid [d₁, d₂], .mock, none,
          some ⟨sid, (n₃.foldl wsStep sD).clock, 2⟩, 0⟩] ∧
      (wsStep (n₃.foldl wsStep sD) WsEvent.finishFinal).sent =
        (n₃.foldl wsStep sD).sent ++
          [.final (generateFinalTranscription sid [d₁, d₂]) 0] ∧
      (wsStep (n₃.foldl wsStep sD) WsEvent.finishFinal).closed = true := by
    simp [wsStep, f1, f2, f4, f5, f6, f7, f8]
  set sF := wsStep (n₃.foldl wsStep sD) WsEvent.finishFinal with hsF
  obtain ⟨k1, k2, k3, k4, k5, k6, k7, k8⟩ := wsNoise_foldl n₄ h₄ sF
  have ksent := wsFoldl_sent_of_closed n₄ sF g3
  have hE0 : ((n₃.foldl wsStep sD).sent).countP (fun m => m.isFinalMsg) = 0 := by
    rw [List.countP_eq_zero]
    intro x hx
    have := hinv.2.1 f4 x hx
    simp [this]
  refine ⟨by rw [k6, g1], ?_, ?_⟩
  · rw [ksent, g2, List.countP_append, hE0]
    simp [WsOut.isFinalMsg]
  · rw [ksent, g2]
    simp

/-- Witness for `streaming_two_chunk_persists_once`: emission-loop
iterations and timer ticks interleaved around the two chunks. -/
theorem streaming_two_chunk_witness :
    (wsRun ("s") ([] ++ [.recv (.chunk ("a") false)] ++ [WsEvent.emitTick]
        ++ [.recv (.chunk ("b") true)] ++ [WsEvent.tick 500])).records = [] ∧
    (wsRun ("s") ([] ++ [.recv (.chunk ("a") false)] ++ [WsEvent.emitTick]
        ++ [.recv (.chunk ("b") true)] ++ [WsEvent.tick 500] ++ [.finishFinal]
        ++ [WsEvent.emitTick])).records =
      [⟨0, ("ws://streaming-session/") ++ ("s"),
        generateFinalTranscription ("s") [("a"), ("b")], .mock, none,
        some ⟨("s"),
          (wsRun ("s") ([] ++ [.recv (.chunk ("a") false)] ++ [WsEvent.emitTick]
            ++ [.recv (.chunk ("b") true)] ++ [WsEvent.tick 500])).clock, 2⟩, 0⟩] ∧
    ((wsRun ("s") ([] ++ [.recv (.chunk ("a") false)] ++ [WsEvent.emitTick]
        ++ [.recv (.chunk ("b") true)] ++ [WsEvent.tick 500] ++ [.finishFinal]
        ++ [WsEvent.emitTick])).sent).countP (fun m => m.isFinalMsg) = 1 ∧
    (wsRun ("s") ([] ++ [.recv (.chunk ("a") false)] ++ [WsEvent.emitTick]
        ++ [.recv (.chunk ("b") true)] ++ [WsEvent.tick 500] ++ [.finishFinal]
        ++ [WsEvent.emitTick])).sent.getLast? =
      some (.final (generateFinalTranscription ("s") [("a"), ("b")]) 0) :=
  streaming_two_chunk_persists_once ("s") ("a") ("b")
    [] [WsEvent.emitTick] [WsEvent.tick 500] [WsEvent.emitTick]
    (by intro e he; cases he) (by intro e he; simp at he; simp [he, isNoiseEvent])
    (by intro e he; simp at he; simp [he, isNoiseEvent])
    (by intro e he; simp at he; simp [he, isNoiseEvent])

/-- **C7, counterexample.**  A JSON message whose `type` is not `'chunk'`
(here `{type:'ping'}`) is not a well-formed chunk message; the handler's
`else` branch only logs a warning: the session state is unchanged and the
connection stays open, but **no** error notification is emitted — `sent`
still holds only the welcome message — contradicting the claim that every
such message yields exactly one error notification. -/
theorem streaming_non_chunk_message_emits_nothing :
    (wsRun ("s") [.recv (.otherType ("ping"))]).sent = [welcomeMessage] ∧
    ((wsRun ("s") [.recv (.otherType ("ping"))]).sent).countP
        (fun m => m.isErrorNote) = 0 ∧
    (wsRun ("s") [.recv (.otherType ("ping"))]).chunkCount = 0 ∧
    (wsRun ("s") [.recv (.otherType ("ping"))]).audioChunks = [] ∧
    (wsRun ("s") [.recv (.otherType ("ping"))]).isComplete = false ∧
    (wsRun ("s") [.recv (.otherType ("ping"))]).closed = false ∧
    (wsRun ("s") [.recv (.otherType ("ping"))]).records = [] := by
  refine ⟨rfl, ?_, rfl, rfl, rfl, rfl, rfl⟩
  simp [wsRun, wsInit, wsStep, welcomeMessage, WsOut.isErrorNote]

/-- **C7 (amended).**  While the connection is open, an inbound message that
is not a well-formed chunk message leaves the session state unchanged
(no chunk appended, no counter incremented, no transition, nothing
persisted) and the connection open; a message on which `JSON.parse` throws
additionally emits exactly one `{type:'error', message, code}` notification,
while a JSON message whose `type` is not `'chunk'` is dropped with only a
logged warning and no notification. -/
theorem streaming_malformed_message_handling (s : WsState) (t : String)
    (h : s.closed = false) :
    wsStep s (.recv (.otherType t)) = s ∧
    wsStep s (.recv .malformed) =
      { s with sent := s.sent ++
          [.errorNote ("Failed to process audio chunk") ("PROCESSING_ERROR")] } := by
  constructor
  · simp [wsStep, h]
  · simp [wsStep, h]

/-- Witness for `streaming_malformed_message_handling` at the initial
session state. -/
theorem streaming_malformed_message_handling_witness :
    wsStep (wsInit ("w")) (.recv (.otherType ("ping"))) = wsInit ("w") ∧
    wsStep (wsInit ("w")) (.recv .malformed) =
      { wsInit ("w") with sent := (wsInit ("w")).sent ++
          [.errorNote ("Failed to process audio chunk") ("PROCESSING_ERROR")] } :=
  streaming_malformed_message_handling (wsInit ("w")) ("ping") rfl

end AudioFlow
